import Mathlib

/-!
# Verification of the SQL usage-analytics core of the `mario` repository

This file shallowly embeds the two components specified in `spec.md`:

* the SQL Reference Extractor, `parse_sql_tables_and_columns`
  (`src/stats_page.py`, lines 375-423), a regex-heuristic scan that pulls
  table names (after `FROM`/`JOIN`) and column names (between the first
  `SELECT` and the following `FROM`) out of one SQL string; and
* the Usage Aggregator, `get_sql_usage_analytics`
  (`src/event_logger.py`, lines 567-644), which fetches query rows
  (optionally date-filtered by the SQL `WHERE` clause it builds), runs the
  extractor over each row, and maintains three `Counter`s.

The Python regexes are embedded as deterministic scanners whose behaviour
coincides with the backtracking semantics of the concrete patterns used in
the source (`(?:FROM|JOIN)\s+(?:[backtick])?([a-zA-Z0-9_]+\.)?([a-zA-Z0-9_]+\.)?([a-zA-Z0-9_]+)(?:[backtick])?`
for tables, `SELECT\s+(.*?)\s+FROM` with DOTALL for the column clause, and
the per-fragment first-identifier search).  Python's `str.upper`/`str.lower`
are modelled by the ASCII `Char.toUpper`/`Char.toLower` (all identifiers
involved are ASCII).  `Counter` objects are modelled as insertion-ordered
association lists, matching `collections.Counter` item order.
-/

/-- Python `\s` on ASCII text: space, tab, newline, carriage return,
vertical tab, form feed. -/
def isPySpace (c : Char) : Bool :=
  c = ' ' || c = '\t' || c = '\n' || c = '\r' || c = '\x0b' || c = '\x0c'

/-- The regex character class `[a-zA-Z0-9_]` (and `\w` on ASCII). -/
def isWordChar (c : Char) : Bool :=
  c.isAlphanum || c = '_'

/-- Drop a single leading backtick if present: the `(?:[backtick])?` part of the
table pattern of `parse_sql_tables_and_columns`. -/
def dropBacktick : List Char → List Char
  | '`' :: rest => rest
  | cs => cs

/-- Match the alternation `(?:FROM|JOIN)` at the head of the (already
upper-cased) text, returning the remainder. -/
def startsWithKeyword : List Char → Option (List Char)
  | 'F' :: 'R' :: 'O' :: 'M' :: rest => some rest
  | 'J' :: 'O' :: 'I' :: 'N' :: rest => some rest
  | _ => none

/-- One attempted match of the table regex
`(?:FROM|JOIN)\s+(?:[backtick])?([a-zA-Z0-9_]+\.)?([a-zA-Z0-9_]+\.)?([a-zA-Z0-9_]+)(?:[backtick])?`
at the current position.  Returns the three captured groups (unmatched
optional groups are `""`, exactly as `re.findall` reports them) and the
remainder of the text after the match.  The case analysis reproduces the
regex engine's backtracking order for the two optional dotted groups:
each `([a-zA-Z0-9_]+\.)?` can only match a maximal word run that is
immediately followed by a dot, and when the mandatory third group then
finds no word character the engine gives the optional groups up again. -/
def matchFromAt (cs : List Char) : Option ((String × String × String) × List Char) :=
  match startsWithKeyword cs with
  | none => none
  | some afterKw =>
    if (afterKw.takeWhile isPySpace).isEmpty then none
    else
      let t1 := dropBacktick (afterKw.dropWhile isPySpace)
      let r1 := t1.takeWhile isWordChar
      let t2 := t1.dropWhile isWordChar
      if r1.isEmpty then none
      else
        match t2 with
        | '.' :: t3 =>
          let r2 := t3.takeWhile isWordChar
          let t4 := t3.dropWhile isWordChar
          if r2.isEmpty then
            -- both optional groups backtrack to empty; group 3 takes `r1`
            some (("", "", String.mk r1), t2)
          else
            match t4 with
            | '.' :: t5 =>
              let r3 := t5.takeWhile isWordChar
              let t6 := t5.dropWhile isWordChar
              if r3.isEmpty then
                -- group 2 backtracks; group 3 takes `r2`
                some ((String.mk (r1 ++ ['.']), "", String.mk r2), t4)
              else
                some ((String.mk (r1 ++ ['.']), String.mk (r2 ++ ['.']), String.mk r3),
                      dropBacktick t6)
            | _ =>
              some ((String.mk (r1 ++ ['.']), "", String.mk r2), dropBacktick t4)
        | _ => some (("", "", String.mk r1), dropBacktick t2)

/-- `re.findall` scanning loop for the table pattern: try a match at every
position, and after a match resume right after it.  The fuel argument is
the length of the text; every step consumes at least one character. -/
def scanTablesAux : Nat → List Char → List (String × String × String)
  | 0, _ => []
  | _ + 1, [] => []
  | fuel + 1, c :: rest =>
    match matchFromAt (c :: rest) with
    | some (g, remainder) => g :: scanTablesAux fuel remainder
    | none => scanTablesAux fuel rest

/-- All matches of the table pattern in the text, in order. -/
def reFindallFrom (cs : List Char) : List (String × String × String) :=
  scanTablesAux cs.length cs

/-- Does the text start with the literal `FROM`? -/
def startsWithFROM : List Char → Bool
  | 'F' :: 'R' :: 'O' :: 'M' :: _ => true
  | _ => false

/-- The lazy group of `SELECT\s+(.*?)\s+FROM`: starting right after the
whitespace that follows `SELECT`, find the shortest prefix (the
accumulator) whose end is followed by at least one whitespace character
and then the literal `FROM`.  `FROM` starts with a non-space character,
so the greedy `\s+` before it necessarily ends exactly where `FROM`
starts. -/
def findLazyEnd : List Char → List Char → Option (List Char)
  | _, [] => none
  | acc, c :: rest =>
    if isPySpace c && startsWithFROM ((c :: rest).dropWhile isPySpace) then
      some acc.reverse
    else
      findLazyEnd (c :: acc) rest

/-- One attempted match of `SELECT\s+(.*?)\s+FROM` (DOTALL) at the current
position.  When no group end exists from the first non-space position, the
greedy leading `\s+` backtracks: if it spanned at least two characters and
`FROM` starts right after it, the group matches the empty string inside
that whitespace run. -/
def trySelectAt (cs : List Char) : Option (List Char) :=
  match cs with
  | 'S' :: 'E' :: 'L' :: 'E' :: 'C' :: 'T' :: rest =>
    let w := rest.takeWhile isPySpace
    if w.isEmpty then none
    else
      let gstart := rest.dropWhile isPySpace
      match findLazyEnd [] gstart with
      | some g => some g
      | none => if w.length ≥ 2 && startsWithFROM gstart then some [] else none
  | _ => none

/-- `re.search` for `SELECT\s+(.*?)\s+FROM`: the match at the leftmost
position where the whole pattern succeeds; returns the captured group. -/
def scanSelect : List Char → Option (List Char)
  | [] => none
  | c :: rest =>
    match trySelectAt (c :: rest) with
    | some g => some g
    | none => scanSelect rest

/-- Python `str.split(',')`: the empty string yields one empty fragment. -/
def splitOnComma : List Char → List (List Char)
  | [] => [[]]
  | ',' :: rest => [] :: splitOnComma rest
  | c :: rest =>
    match splitOnComma rest with
    | h :: t => (c :: h) :: t
    | [] => [[c]]

/-- Python `str.strip()` restricted to ASCII whitespace. -/
def stripWs (cs : List Char) : List Char :=
  ((cs.dropWhile isPySpace).reverse.dropWhile isPySpace).reverse

/-- The group of `re.search` for
`(?:[backtick])?([a-zA-Z0-9_]+)(?:[backtick])?(?:\s+AS)?` over a fragment: the
first maximal run of word characters, if any. -/
def firstWordRun : List Char → Option (List Char)
  | [] => none
  | c :: rest =>
    if isWordChar c then some ((c :: rest).takeWhile isWordChar)
    else firstWordRun rest

/-- The keyword denylist applied to extracted column names
(`src/stats_page.py`, line 417). -/
def colDenylist : List String :=
  ["as", "from", "where", "select", "distinct", "count", "sum", "avg",
   "max", "min", "case", "when", "then", "else", "end"]

/-- Result record of the extractor: the `{'tables': [...], 'columns': [...]}`
dictionary.  Both lists are insertion-ordered and duplicate-free. -/
structure ParseResult where
  tables : List String
  columns : List String
  deriving DecidableEq, Repr

/-- `'.'.join(table_parts).lower()` over the non-empty groups of one match
(`src/stats_page.py`, lines 395-398).  The captured qualifier groups retain
their trailing dot, so the join can double dots. -/
def joinParts (g : String × String × String) : Option String :=
  let parts := [g.1, g.2.1, g.2.2].filter (fun p => decide (p ≠ "" ∧ p ≠ "."))
  if parts.isEmpty then none
  else some (String.mk ((String.intercalate "." parts).data.map Char.toLower))

/-- Append a value only if it is not already present (`if x not in xs:
xs.append(x)`). -/
def dedupAppend (l : List String) (x : String) : List String :=
  if x ∈ l then l else l ++ [x]

/-- The table-collection loop of `parse_sql_tables_and_columns`. -/
def collectTables (ms : List (String × String × String)) : List String :=
  ms.foldl
    (fun acc m =>
      match joinParts m with
      | some ft => dedupAppend acc ft
      | none => acc)
    []

/-- The column-collection loop over the captured `SELECT` clause. -/
def collectColumns (clause : List Char) : List String :=
  (splitOnComma clause).foldl
    (fun acc part =>
      match firstWordRun (stripWs part) with
      | none => acc
      | some run =>
        let colName := String.mk (run.map Char.toLower)
        if colName ∈ colDenylist then acc else dedupAppend acc colName)
    []

/-- `sql_query.upper()` as a character list (ASCII). -/
def toUpperChars (s : String) : List Char :=
  s.data.map Char.toUpper

/-- `parse_sql_tables_and_columns` on a non-empty string: upper-case,
collect tables from every `FROM`/`JOIN` match, collect columns from the
first `SELECT ... FROM` clause. -/
def parseSqlStr (s : String) : ParseResult :=
  let cs := toUpperChars s
  { tables := collectTables (reFindallFrom cs)
    columns :=
      match scanSelect cs with
      | none => []
      | some clause => collectColumns clause }

/-- `parse_sql_tables_and_columns` (`src/stats_page.py`, lines 375-423).
The argument is `Option String` so that Python `None` is representable;
`if not sql_query` short-circuits both `None` and the empty string. -/
def parse_sql_tables_and_columns (sql : Option String) : ParseResult :=
  match sql with
  | none => ⟨[], []⟩
  | some s => if s = "" then ⟨[], []⟩ else parseSqlStr s

/-!
## The Usage Aggregator (`src/event_logger.py`, `get_sql_usage_analytics`)

`collections.Counter` is modelled as an insertion-ordered association
list; `counter[k] += 1` increments the first entry for `k`, or appends a
fresh entry with count 1 (a missing key reads as 0).  The fetched rows are
`List (Option String)` (the `metadata->>'sql_query'` column).  The
extractor argument of the loop is `String → Except Unit ParseResult` so
that the spec's hypothetical of a throwing extraction is representable;
the real extractor is total and is passed as `runExtractor`.
-/

/-- `Counter[k] += 1` on an insertion-ordered association list. -/
def bump {K : Type} [DecidableEq K] : List (K × Nat) → K → List (K × Nat)
  | [], k => [(k, 1)]
  | (k', n) :: rest, k =>
    if k' = k then (k', n + 1) :: rest else (k', n) :: bump rest k

/-- `Counter[k]`: the count stored for `k`, 0 when absent. -/
def lookupCount {K : Type} [DecidableEq K] : List (K × Nat) → K → Nat
  | [], _ => 0
  | (k', n) :: rest, k => if k' = k then n else lookupCount rest k

/-- The three counters maintained by the aggregation loop. -/
structure Counters where
  table_counter : List (String × Nat)
  column_counter : List (String × Nat)
  table_column_counter : List ((String × String) × Nat)
  deriving DecidableEq, Repr

/-- All counters empty, the state before the loop. -/
def initCounters : Counters := ⟨[], [], []⟩

/-- The per-record update of `get_sql_usage_analytics`
(`src/event_logger.py`, lines 610-621): once per table bump the table
counter and, nested, once per column bump the `(table, column)` pair
counter; then once per column bump the global column counter.  The three
counters are independent, so the interleaved Python loop is written
component-wise. -/
def processRow (p : ParseResult) (c : Counters) : Counters :=
  { table_counter := p.tables.foldl bump c.table_counter
    column_counter := p.columns.foldl bump c.column_counter
    table_column_counter :=
      p.tables.foldl
        (fun m t => p.columns.foldl (fun m2 col => bump m2 (t, col)) m)
        c.table_column_counter }

/-- The real extractor never throws. -/
def runExtractor (s : String) : Except Unit ParseResult :=
  .ok (parseSqlStr s)

/-- The aggregation loop with the real (total) extractor: rows whose text
is `None` or empty are skipped by `if sql_query:`. -/
def aggregateRows : List (Option String) → Counters → Counters
  | [], c => c
  | row :: rest, c =>
    match row with
    | none => aggregateRows rest c
    | some s =>
      if s = "" then aggregateRows rest c
      else aggregateRows rest (processRow (parseSqlStr s) c)

/-- The aggregation loop with an arbitrary (possibly throwing) extractor.
There is no `try`/`except` inside the loop, so a thrown exception
propagates out of it immediately, exactly as in the source. -/
def aggLoopE (ext : String → Except Unit ParseResult) :
    List (Option String) → Counters → Except Unit Counters
  | [], c => .ok c
  | row :: rest, c =>
    match row with
    | none => aggLoopE ext rest c
    | some s =>
      if s = "" then aggLoopE ext rest c
      else
        match ext s with
        | .error e => .error e
        | .ok p => aggLoopE ext rest (processRow p c)

/-- The returned dictionary: the three formatted lists
(`{'table_name', 'count'}`, `{'column_name', 'count'}`,
`{'table_name', 'column_name', 'count'}`). -/
structure SqlUsageAnalytics where
  tables : List (String × Nat)
  columns : List (String × Nat)
  table_columns : List ((String × String) × Nat)
  deriving DecidableEq, Repr

/-- `Counter.items()` in insertion order, wrapped into the result lists. -/
def formatCounters (c : Counters) : SqlUsageAnalytics :=
  ⟨c.table_counter, c.column_counter, c.table_column_counter⟩

/-- `{'tables': [], 'columns': [], 'table_columns': []}`, returned by both
`except` branches. -/
def emptyAnalytics : SqlUsageAnalytics := ⟨[], [], []⟩

/-- `get_sql_usage_analytics` (`src/event_logger.py`, lines 567-644): the
whole body sits in one `try`; a failure fetching the rows or a throw
anywhere inside the loop lands in an `except` arm that returns the empty
dictionary.  The fetch outcome is passed in as an `Except` value. -/
def get_sql_usage_analytics (ext : String → Except Unit ParseResult)
    (fetch : Except Unit (List (Option String))) : SqlUsageAnalytics :=
  match fetch with
  | .error _ => emptyAnalytics
  | .ok rows =>
    match aggLoopE ext rows initCounters with
    | .error _ => emptyAnalytics
    | .ok c => formatCounters c

/-!
## The SQL date filter built by `get_sql_usage_analytics`

The rows come from
`SELECT metadata->>'sql_query' FROM user_events WHERE event_type =
'sql_response' AND metadata->>'sql_query' IS NOT NULL {date_filter}`
where `date_filter` is empty when `days <= 0` and
`AND timestamp >= NOW() - INTERVAL '{days} days'` otherwise.  Timestamps
are modelled as integer seconds; a day is 86400 seconds.
-/

/-- One row of the `user_events` table, restricted to the columns the
query touches. -/
structure EventRow where
  event_type : String
  sql_query : Option String
  timestamp : Int
  deriving DecidableEq, Repr

/-- The `WHERE` clause of the analytics query, including the optional
date filter (`src/event_logger.py`, lines 580-592). -/
def sqlWhere (now days : Int) (e : EventRow) : Bool :=
  e.event_type == "sql_response" && e.sql_query.isSome &&
    (if 0 < days then decide (now - days * 86400 ≤ e.timestamp) else true)

/-- The rows produced by the analytics query: the filtered events'
`sql_query` column, in table order. -/
def fetchRows (now days : Int) (events : List EventRow) : List (Option String) :=
  (events.filter (sqlWhere now days)).map (·.sql_query)

/-- The full pipeline over an in-memory event table: fetch succeeds and
the real extractor is used. -/
def getSqlUsageAnalyticsDb (now days : Int) (events : List EventRow) : SqlUsageAnalytics :=
  get_sql_usage_analytics runExtractor (.ok (fetchRows now days events))

/-- An extractor that throws on the marker text `"BOOM"` and behaves like
the real one elsewhere: the hypothetical of spec §4.2's failure
semantics. -/
def badExtractor (s : String) : Except Unit ParseResult :=
  if s = "BOOM" then .error () else .ok (parseSqlStr s)

/-!
## Counter lemmas
-/

theorem lookupCount_bump {K : Type} [DecidableEq K] (c : List (K × Nat)) (k k' : K) :
    lookupCount (bump c k) k' = lookupCount c k' + (if k = k' then 1 else 0) := by
  induction c with
  | nil => by_cases h : k = k' <;> simp [bump, lookupCount, h]
  | cons hd tl ih =>
    obtain ⟨a, n⟩ := hd
    by_cases hak : a = k
    · subst hak
      by_cases hak' : a = k' <;> simp [bump, lookupCount, hak']
    · by_cases hak' : a = k'
      · subst hak'
        simp [bump, lookupCount, hak, Ne.symm hak]
      · simp [bump, lookupCount, hak, hak', ih]

theorem lookupCount_foldl_bump {K : Type} [DecidableEq K] (l : List K)
    (c : List (K × Nat)) (k : K) :
    lookupCount (l.foldl bump c) k
      = lookupCount c k + l.countP (fun x => decide (x = k)) := by
  induction l generalizing c with
  | nil => simp
  | cons a l ih =>
    by_cases hak : a = k <;>
      simp [List.foldl_cons, ih, lookupCount_bump, List.countP_cons, hak] <;> omega

theorem lookupCount_colFold (cols : List String) (m : List ((String × String) × Nat))
    (a t c : String) :
    lookupCount (cols.foldl (fun m3 col => bump m3 (a, col)) m) (t, c)
      = lookupCount m (t, c)
        + (if a = t then cols.countP (fun x => decide (x = c)) else 0) := by
  induction cols generalizing m with
  | nil => simp
  | cons b l ih =>
    rw [List.foldl_cons, ih, lookupCount_bump]
    by_cases hat : a = t <;> by_cases hbc : b = c <;>
      simp [List.countP_cons, Prod.mk.injEq, hat, hbc] <;> omega

theorem lookupCount_pairFold (tables cols : List String)
    (m : List ((String × String) × Nat)) (t c : String) :
    lookupCount
        (tables.foldl
          (fun m2 tb => cols.foldl (fun m3 col => bump m3 (tb, col)) m2) m)
        (t, c)
      = lookupCount m (t, c)
        + tables.countP (fun x => decide (x = t))
            * cols.countP (fun x => decide (x = c)) := by
  induction tables generalizing m with
  | nil => simp
  | cons a l ih =>
    by_cases hat : a = t <;>
      simp [List.foldl_cons, ih, lookupCount_colFold, List.countP_cons, hat] <;>
      ring

/-!
## The extractor's result lists carry no duplicates
-/

theorem dedupAppend_nodup {l : List String} {x : String} (h : l.Nodup) :
    (dedupAppend l x).Nodup := by
  by_cases hx : x ∈ l
  · simpa [dedupAppend, hx] using h
  · simp only [dedupAppend, hx, if_false]
    simp [List.nodup_append, h, hx]

theorem collectTables_foldl_nodup (ms : List (String × String × String))
    (acc : List String) (h : acc.Nodup) :
    (ms.foldl
      (fun acc m =>
        match joinParts m with
        | some ft => dedupAppend acc ft
        | none => acc)
      acc).Nodup := by
  induction ms generalizing acc with
  | nil => simpa
  | cons m ms ih =>
    rw [List.foldl_cons]
    cases hj : joinParts m with
    | none => simpa [hj] using ih acc h
    | some ft => simpa [hj] using ih _ (dedupAppend_nodup h)

theorem collectTables_nodup (ms : List (String × String × String)) :
    (collectTables ms).Nodup :=
  collectTables_foldl_nodup ms [] List.nodup_nil

theorem collectColumns_foldl_nodup (parts : List (List Char))
    (acc : List String) (h : acc.Nodup) :
    (parts.foldl
      (fun acc part =>
        match firstWordRun (stripWs part) with
        | none => acc
        | some run =>
          let colName := String.mk (run.map Char.toLower)
          if colName ∈ colDenylist then acc else dedupAppend acc colName)
      acc).Nodup := by
  induction parts generalizing acc with
  | nil => simpa
  | cons part parts ih =>
    rw [List.foldl_cons]
    cases hw : firstWordRun (stripWs part) with
    | none => simpa [hw] using ih acc h
    | some run =>
      by_cases hd : String.mk (run.map Char.toLower) ∈ colDenylist
      · simpa [hw, hd] using ih acc h
      · simpa [hw, hd] using ih _ (dedupAppend_nodup h)

theorem collectColumns_nodup (clause : List Char) :
    (collectColumns clause).Nodup :=
  collectColumns_foldl_nodup (splitOnComma clause) [] List.nodup_nil

theorem parseSqlStr_tables_nodup (s : String) : (parseSqlStr s).tables.Nodup :=
  collectTables_nodup _

theorem parseSqlStr_columns_nodup (s : String) : (parseSqlStr s).columns.Nodup := by
  unfold parseSqlStr
  cases h : scanSelect (toUpperChars s) <;> simp [h, collectColumns_nodup]

theorem countP_eq_ite_of_nodup {l : List String} {k : String} (h : l.Nodup) :
    l.countP (fun x => decide (x = k)) = if k ∈ l then 1 else 0 := by
  induction l with
  | nil => simp
  | cons a l ih =>
    rcases List.nodup_cons.mp h with ⟨ha, hl⟩
    by_cases hak : k = a
    · subst hak
      have : l.countP (fun x => decide (x = k)) = 0 :=
        List.countP_eq_zero.mpr (fun x hx => by simp; rintro rfl; exact ha hx)
      simp [List.countP_cons, this]
    · simp [List.countP_cons, ih hl, Ne.symm hak, hak]

/-!
## Per-record and loop-level counting lemmas
-/

theorem parseSqlStr_empty : parseSqlStr "" = ⟨[], []⟩ := by decide

theorem processRow_table_count (p : ParseResult) (c : Counters) (t : String) :
    lookupCount (processRow p c).table_counter t
      = lookupCount c.table_counter t
        + p.tables.countP (fun x => decide (x = t)) := by
  simpa [processRow] using lookupCount_foldl_bump p.tables c.table_counter t

theorem processRow_column_count (p : ParseResult) (c : Counters) (col : String) :
    lookupCount (processRow p c).column_counter col
      = lookupCount c.column_counter col
        + p.columns.countP (fun x => decide (x = col)) := by
  simpa [processRow] using lookupCount_foldl_bump p.columns c.column_counter col

theorem processRow_pair_count (p : ParseResult) (c : Counters) (t col : String) :
    lookupCount (processRow p c).table_column_counter (t, col)
      = lookupCount c.table_column_counter (t, col)
        + p.tables.countP (fun x => decide (x = t))
            * p.columns.countP (fun x => decide (x = col)) := by
  simpa [processRow] using
    lookupCount_pairFold p.tables p.columns c.table_column_counter t col

/-- Does this row contribute table `t`: its text is non-null and the
extractor lists `t` among the row's tables? -/
def contributesTable (t : String) : Option String → Bool
  | none => false
  | some s => decide (t ∈ (parseSqlStr s).tables)

/-- Does this row contribute column `col` to the global column counter? -/
def contributesColumn (col : String) : Option String → Bool
  | none => false
  | some s => decide (col ∈ (parseSqlStr s).columns)

theorem aggregateRows_table_count (rows : List (Option String)) (c : Counters)
    (t : String) :
    lookupCount (aggregateRows rows c).table_counter t
      = lookupCount c.table_counter t + rows.countP (contributesTable t) := by
  induction rows generalizing c with
  | nil => simp [aggregateRows]
  | cons row rest ih =>
    cases row with
    | none => simp [aggregateRows, ih, List.countP_cons, contributesTable]
    | some s =>
      by_cases hs : s = ""
      · subst hs
        simp [aggregateRows, ih, List.countP_cons, contributesTable,
              parseSqlStr_empty]
      · rw [show aggregateRows (some s :: rest) c
              = aggregateRows rest (processRow (parseSqlStr s) c) by
            simp [aggregateRows, hs]]
        rw [ih, processRow_table_count,
            countP_eq_ite_of_nodup (parseSqlStr_tables_nodup s)]
        by_cases ht : t ∈ (parseSqlStr s).tables <;>
          simp [List.countP_cons, contributesTable, ht] <;> omega

theorem aggregateRows_column_count (rows : List (Option String)) (c : Counters)
    (col : String) :
    lookupCount (aggregateRows rows c).column_counter col
      = lookupCount c.column_counter col + rows.countP (contributesColumn col) := by
  induction rows generalizing c with
  | nil => simp [aggregateRows]
  | cons row rest ih =>
    cases row with
    | none => simp [aggregateRows, ih, List.countP_cons, contributesColumn]
    | some s =>
      by_cases hs : s = ""
      · subst hs
        simp [aggregateRows, ih, List.countP_cons, contributesColumn,
              parseSqlStr_empty]
      · rw [show aggregateRows (some s :: rest) c
              = aggregateRows rest (processRow (parseSqlStr s) c) by
            simp [aggregateRows, hs]]
        rw [ih, processRow_column_count,
            countP_eq_ite_of_nodup (parseSqlStr_columns_nodup s)]
        by_cases hc : col ∈ (parseSqlStr s).columns <;>
          simp [List.countP_cons, contributesColumn, hc] <;> omega

theorem aggregateRows_pair_count (rows : List (Option String)) (c : Counters)
    (t col : String) :
    lookupCount (aggregateRows rows c).table_column_counter (t, col)
      = lookupCount c.table_column_counter (t, col)
        + rows.countP (fun r => contributesTable t r && contributesColumn col r) := by
  induction rows generalizing c with
  | nil => simp [aggregateRows]
  | cons row rest ih =>
    cases row with
    | none => simp [aggregateRows, ih, List.countP_cons, contributesTable]
    | some s =>
      by_cases hs : s = ""
      · subst hs
        simp [aggregateRows, ih, List.countP_cons, contributesTable,
              parseSqlStr_empty]
      · rw [show aggregateRows (some s :: rest) c
              = aggregateRows rest (processRow (parseSqlStr s) c) by
            simp [aggregateRows, hs]]
        rw [ih, processRow_pair_count,
            countP_eq_ite_of_nodup (parseSqlStr_tables_nodup s),
            countP_eq_ite_of_nodup (parseSqlStr_columns_nodup s)]
        by_cases ht : t ∈ (parseSqlStr s).tables <;>
          by_cases hc : col ∈ (parseSqlStr s).columns <;>
          simp [List.countP_cons, contributesTable, contributesColumn, ht, hc] <;>
          omega

/-- With the real (total) extractor the `Except` loop never reaches an
`except` arm and computes exactly `aggregateRows`. -/
theorem aggLoopE_runExtractor (rows : List (Option String)) (c : Counters) :
    aggLoopE runExtractor rows c = .ok (aggregateRows rows c) := by
  induction rows generalizing c with
  | nil => rfl
  | cons row rest ih =>
    cases row with
    | none => simpa [aggLoopE, aggregateRows] using ih c
    | some s =>
      by_cases hs : s = "" <;>
        simp [aggLoopE, aggregateRows, runExtractor, hs, ih]

/-- Skipping lemma: a `None` row is a no-op anywhere in the row list. -/
theorem aggregateRows_skip_none (pre post : List (Option String)) (c : Counters) :
    aggregateRows (pre ++ none :: post) c = aggregateRows (pre ++ post) c := by
  induction pre generalizing c with
  | nil => simp [aggregateRows]
  | cons row pre ih =>
    cases row with
    | none => simpa [aggregateRows] using ih c
    | some s =>
      by_cases hs : s = "" <;> simp [aggregateRows, hs, ih]

/-!
## Claim theorems
-/

/-- C1: aggregation increments each counter once per query per key — every
non-null record adds exactly 1 to the count of each table in its extracted
table list, each column in its extracted column list, and each pair in the
Cartesian product of the two, so the final counts equal the number of
contributing queries. -/
theorem aggregation_counts_once_per_query (rows : List (Option String))
    (t col : String) :
    lookupCount (aggregateRows rows initCounters).table_counter t
      = rows.countP (contributesTable t)
    ∧ lookupCount (aggregateRows rows initCounters).column_counter col
      = rows.countP (contributesColumn col)
    ∧ lookupCount (aggregateRows rows initCounters).table_column_counter (t, col)
      = rows.countP (fun r => contributesTable t r && contributesColumn col r) :=
  ⟨by simpa [initCounters, lookupCount] using
      aggregateRows_table_count rows initCounters t,
   by simpa [initCounters, lookupCount] using
      aggregateRows_column_count rows initCounters col,
   by simpa [initCounters, lookupCount] using
      aggregateRows_pair_count rows initCounters t col⟩

/-- C2 counterexample: on `SELECT x FROM `cat`.`sch`.`tbl`` the extractor
does NOT emit the dot-joined three-part name `cat.sch.tbl` that the claim
requires (it only captures the first backtick-quoted part). -/
theorem backtick_table_claim_counterexample :
    "cat.sch.tbl" ∉
      (parse_sql_tables_and_columns (some "SELECT x FROM `cat`.`sch`.`tbl`")).tables := by
  decide

/-- C2 amended: extract("SELECT x FROM `cat`.`sch`.`tbl`") returns
tables = {"cat"} and columns = {"x"}: the table pattern accepts a backtick
only immediately around the first identifier part, so a per-part
backtick-quoted 3-part name is truncated to its lowercased first part. -/
theorem backtick_table_truncated_to_first_part :
    parse_sql_tables_and_columns (some "SELECT x FROM `cat`.`sch`.`tbl`")
      = ⟨["cat"], ["x"]⟩ := by
  decide

/-- C3 counterexample: a 2-part reference `sch.tbl` after FROM does NOT
yield the claimed string "sch.tbl". -/
theorem dotted_table_claim_counterexample :
    "sch.tbl" ∉
      (parse_sql_tables_and_columns (some "SELECT x FROM sch.tbl")).tables := by
  decide

/-- C3 amended: for an unquoted dot-qualified table reference after FROM
or JOIN the qualifier groups are captured with their trailing dot, so the
join doubles each interior dot: a 2-part reference such as sch.tbl yields
"sch..tbl" and a 3-part reference such as cat.sch.tbl yields
"cat..sch..tbl" (all parts present, lowercase, but with doubled dots). -/
theorem dotted_table_doubled_dots :
    parse_sql_tables_and_columns (some "SELECT x FROM sch.tbl")
      = ⟨["sch..tbl"], ["x"]⟩
    ∧ parse_sql_tables_and_columns (some "SELECT x FROM cat.sch.tbl")
      = ⟨["cat..sch..tbl"], ["x"]⟩ :=
  ⟨by decide, by decide⟩

/-- C4 counterexample: with an extractor that throws on the second record,
the aggregation does NOT return the counts contributed by the first
(good) record — it returns the fully empty result, although processing
the good record alone would count table "t" once. -/
theorem throwing_record_claim_counterexample :
    get_sql_usage_analytics badExtractor
        (.ok [some "SELECT a FROM t", some "BOOM"]) = emptyAnalytics
    ∧ lookupCount (aggregateRows [some "SELECT a FROM t"] initCounters).table_counter "t" = 1
    ∧ emptyAnalytics.tables = [] := by
  refine ⟨by rfl, by decide, rfl⟩

/-- C4 amended: if extraction throws while processing any single query
record, the exception escapes the (uninterrupted) loop to the outer
exception handler: the whole aggregation is aborted and returns the empty
result with all three lists empty — counts contributed by the other
records are discarded, though no exception propagates to the caller. -/
theorem throwing_record_aborts_to_empty (ext : String → Except Unit ParseResult)
    (rows : List (Option String)) (err : Unit)
    (h : aggLoopE ext rows initCounters = .error err) :
    get_sql_usage_analytics ext (.ok rows) = emptyAnalytics := by
  simp [get_sql_usage_analytics, h]

/-- C4 witness: the amended claim at the concrete two-record input whose
second record throws. -/
theorem throwing_record_aborts_to_empty_witness :
    get_sql_usage_analytics badExtractor
        (.ok [some "SELECT a FROM t", some "BOOM"]) = emptyAnalytics :=
  throwing_record_aborts_to_empty badExtractor
    [some "SELECT a FROM t", some "BOOM"] () (by rfl)

/-- C5: the extractor is a total function — for every input (including
None and the empty string) it returns a tables list and a columns list,
and for None or empty input both are empty. -/
theorem extract_total_and_empty_on_missing :
    (∀ sql : Option String, ∃ ts cs : List String,
        parse_sql_tables_and_columns sql = ⟨ts, cs⟩)
    ∧ parse_sql_tables_and_columns none = ⟨[], []⟩
    ∧ parse_sql_tables_and_columns (some "") = ⟨[], []⟩ :=
  ⟨fun sql => ⟨(parse_sql_tables_and_columns sql).tables,
               (parse_sql_tables_and_columns sql).columns, rfl⟩,
   rfl, by decide⟩

/-- C6: the SQL row filter with window 0 applies no date condition (a
matching record is fetched regardless of timestamp); with a positive
window w a matching record passes iff its timestamp is at least
now - w days, and in particular with w = 7 a record timestamped 8 days
ago is excluded. -/
theorem window_filter_semantics (now : Int) (events : List EventRow)
    (e : EventRow) (he : e.event_type = "sql_response")
    (hq : e.sql_query.isSome = true) :
    (e ∈ events → e.sql_query ∈ fetchRows now 0 events)
    ∧ (∀ w : Int, 0 < w →
        (sqlWhere now w e = true ↔ now - w * 86400 ≤ e.timestamp))
    ∧ (e.timestamp = now - 8 * 86400 → sqlWhere now 7 e = false) := by
  refine ⟨?_, ?_, ?_⟩
  · intro hmem
    have hpass : sqlWhere now 0 e = true := by simp [sqlWhere, he, hq]
    exact List.mem_map_of_mem _ (List.mem_filter.mpr ⟨hmem, hpass⟩)
  · intro w hw
    simp [sqlWhere, he, hq, hw]
  · intro hts
    have h7 : (0 : Int) < 7 := by norm_num
    simp [sqlWhere, he, hq, h7, hts]
    omega

/-- C6 witness: the window-filter semantics applied to a concrete
sql_response record timestamped exactly 8 days before now = 0, with
window 7. -/
theorem window_filter_semantics_witness :
    sqlWhere 0 7 ⟨"sql_response", some "SELECT a FROM t", -(8 * 86400)⟩ = false :=
  (window_filter_semantics 0 [] ⟨"sql_response", some "SELECT a FROM t", -(8 * 86400)⟩
      rfl rfl).2.2 (by decide)

/-- C7: the extracted table list is the deduplicated union over all
FROM/JOIN occurrences (it never holds duplicates), a trailing alias is not
captured, and on the multi-join example the result is exactly
tables = {"orders", "customers"} with no columns (the * token yields no
column). -/
theorem tables_deduplicated_union_alias_free :
    parse_sql_tables_and_columns
        (some "SELECT * FROM orders o JOIN customers c ON o.cid=c.id")
      = ⟨["orders", "customers"], []⟩
    ∧ ∀ s : String, (parseSqlStr s).tables.Nodup :=
  ⟨by decide, parseSqlStr_tables_nodup⟩

/-- C8: columns come from the clause between the first SELECT and the next
FROM, split on commas, first identifier per fragment, lowercased, with the
fixed keyword denylist applied; when no SELECT...FROM shape exists the
column list is empty. -/
theorem columns_first_identifier_denylist :
    parse_sql_tables_and_columns (some "SELECT a, b FROM t") = ⟨["t"], ["a", "b"]⟩
    ∧ parse_sql_tables_and_columns (some "SELECT count(*) FROM t") = ⟨["t"], []⟩
    ∧ ∀ s : String,
        scanSelect (toUpperChars s) = none → (parseSqlStr s).columns = [] := by
  refine ⟨by decide, by decide, ?_⟩
  intro s h
  simp [parseSqlStr, h]

/-- C8 witness: the no-SELECT...FROM-shape branch at a concrete non-SELECT
statement. -/
theorem columns_first_identifier_denylist_witness :
    (parseSqlStr "UPDATE t SET x = 1").columns = [] :=
  columns_first_identifier_denylist.2.2 "UPDATE t SET x = 1" (by decide)

/-- C9: a record with null query_text is skipped silently: the loop raises
no error on it and the final counters over any sequence containing the
null record equal those over the same sequence with it removed. -/
theorem null_query_text_skipped (pre post : List (Option String)) (c : Counters) :
    aggLoopE runExtractor (pre ++ none :: post) c
      = aggLoopE runExtractor (pre ++ post) c
    ∧ aggLoopE runExtractor (pre ++ none :: post) c
      = .ok (aggregateRows (pre ++ post) c) := by
  have h1 := aggLoopE_runExtractor (pre ++ none :: post) c
  have h2 := aggLoopE_runExtractor (pre ++ post) c
  have h3 := aggregateRows_skip_none pre post c
  exact ⟨by rw [h1, h2, h3], by rw [h1, h3]⟩

/-- C10: get_sql_usage_analytics never propagates a failure — if the row
fetch fails, or the extraction/counting loop throws anywhere, it returns
the dictionary with all three lists empty. -/
theorem analytics_returns_empty_on_failure
    (ext : String → Except Unit ParseResult)
    (fetch : Except Unit (List (Option String))) :
    (∀ err : Unit, fetch = .error err →
        get_sql_usage_analytics ext fetch = emptyAnalytics)
    ∧ (∀ rows err, fetch = .ok rows →
        aggLoopE ext rows initCounters = .error err →
        get_sql_usage_analytics ext fetch = emptyAnalytics) := by
  constructor
  · rintro err rfl
    rfl
  · rintro rows err rfl hloop
    simp [get_sql_usage_analytics, hloop]

/-- C10 witness: a failed fetch yields the empty dictionary. -/
theorem analytics_returns_empty_on_failure_witness :
    get_sql_usage_analytics runExtractor (.error ()) = emptyAnalytics :=
  (analytics_returns_empty_on_failure runExtractor (.error ())).1 () rfl
